import Mathlib

/-!
# Verification of the OpenOB Windows UI orchestration/telemetry core

Shallow embedding of the parts of the repository `hubeidata/openob_windows`
that the specification's claims are about:

* `src/ui/core/models.py` — `VUState.decay`, `LinkConfig.from_args`,
  `LinkConfig.to_args` (modelled over token lists: `shlex` tokenisation of a
  plain, quote-free argument string is exactly whitespace splitting, and
  `to_args` joins its parts with single spaces, so the token-list level is
  the faithful level for the parse/serialise round trip).
* `src/ui/services/redis_service.py` — `RedisService.fetch_vu_data`,
  `_parse_vu_values`, `_parse_timestamp`.  The Redis backend is modelled as
  a total map from keys to hashes (`hgetall` of a missing key is the empty
  hash); the wall clock is passed explicitly.
* `src/ui/services/utils.py` — `db_to_normalized` (floats idealised as ℝ,
  `math.pow` as `Real.rpow`).
* `src/ui/services/process_service.py` — `OpenOBProcessManager.start/stop/
  is_running`, with the outside world (exceptions raised by
  `terminate`/`kill`/`Popen`, the `wait` timeout, the Redis service status)
  supplied as explicit environment data.
* `src/ui/core/controller.py` — `AppController.stop_openob`,
  `start_openob`, `toggle_openob` over the relevant `AppState` fields,
  together with a trace of the process-manager operations each call makes.

Numeric values carried by telemetry records and the VU state are modelled
as ℚ (the Python code manipulates them with exact decimal literals and the
claims under scrutiny do not depend on float rounding); `db_to_normalized`
is modelled over ℝ because of the fractional power.
-/

/-! ## process_service.py: results, service status, process handles -/

/-- `ProcessResult` from `src/ui/services/process_service.py`. -/
structure ProcessResult where
  success : Bool
  message : String
  return_code : Int
deriving DecidableEq, Repr

/-- `ServiceStatus` enum from `src/ui/services/process_service.py`. -/
inductive ServiceStatus where
  | RUNNING
  | STOPPED
  | NOT_INSTALLED
  | UNKNOWN
deriving DecidableEq, Repr

/-- The `OpenOBProcessManager._process` handle: `none` models
`self._process is None`; `some true` a spawned process whose `poll()` is
`None` (still alive); `some false` a spawned process that has exited. -/
abbrev ProcHandle := Option Bool

/-- `OpenOBProcessManager.is_running`:
`self._process is not None and self._process.poll() is None`. -/
def is_running (proc : ProcHandle) : Bool :=
  proc = some true

/-- Environment for one call to `OpenOBProcessManager.stop`: which of the
underlying OS calls raise, whether the graceful `wait` times out, and the
text of the exception if one is raised (`str(e)`). -/
structure StopEnv where
  terminateRaises : Bool
  waitTimesOut : Bool
  killRaises : Bool
  exMsg : String
deriving DecidableEq, Repr

/-- `OpenOBProcessManager.stop` from `src/ui/services/process_service.py`
(lines 250–282).  Returns the new `_process` handle and the
`ProcessResult`.  Mirrors the source control flow exactly:

* not running → `ProcessResult(success=False, message="OpenOB not running")`,
  handle untouched;
* otherwise `terminate()`; if it raises, the `except` block sets
  `self._process = None` and returns failure with `str(e)`;
* `wait(timeout)`: on `TimeoutExpired`, `kill()` (whose exception again goes
  to the outer `except` which still clears the handle);
* on every non-early-return path `self._process = None`. -/
def managerStop (proc : ProcHandle) (env : StopEnv) : ProcHandle × ProcessResult :=
  if ¬ is_running proc then
    (proc, ⟨false, "OpenOB not running", 0⟩)
  else if env.terminateRaises then
    (none, ⟨false, env.exMsg, 0⟩)
  else if env.waitTimesOut then
    if env.killRaises then
      (none, ⟨false, env.exMsg, 0⟩)
    else
      (none, ⟨true, "OpenOB stopped", 0⟩)
  else
    (none, ⟨true, "OpenOB stopped", 0⟩)

/-- Environment for one call to `AppController.start_openob` /
`OpenOBProcessManager.start`: result of `can_start()`, the Redis service
status reported by `RedisServiceManager.get_status()`, and whether
`subprocess.Popen` raises (with the exception text). -/
structure StartEnv where
  canStart : Bool
  canStartMsg : String
  redisStatus : ServiceStatus
  spawnRaises : Bool
  spawnMsg : String
deriving DecidableEq, Repr

/-- `OpenOBProcessManager.start` from `src/ui/services/process_service.py`
(lines 186–248), observable effects only (the spawned command line itself is
out of scope of the claims).  Note the source derives the success message
from `use_fallback` alone. -/
def managerStart (env : StartEnv) (args : String) (useFallback : Bool)
    (proc : ProcHandle) : ProcHandle × ProcessResult :=
  if is_running proc then
    (proc, ⟨false, "OpenOB already running", 0⟩)
  else if args.trim = "" then
    (proc, ⟨false, "Empty OpenOB arguments", 0⟩)
  else if env.spawnRaises then
    (proc, ⟨false, env.spawnMsg, 0⟩)
  else
    (some true,
      ⟨true,
        if useFallback then "Started OpenOB (fallback script)"
        else "Started OpenOB (direct venv)", 0⟩)

/-! ## controller.py: controller state and the start/stop/toggle operations -/

/-- The fields of `AppState` (plus the process handle owned by the
controller's `OpenOBProcessManager` and the current args string) that the
start/stop/toggle/cooldown logic of `src/ui/core/controller.py` reads or
writes. -/
structure CtrlState where
  openob_running : Bool
  redis_running : Bool
  cooldown_active : Bool
  cooldown_remaining : Int
  args : String
  proc : ProcHandle
deriving DecidableEq, Repr

/-- Operations of the `OpenOBProcessManager` observable from the controller;
used to record, per controller call, which process-manager operations were
invoked. -/
inductive PMCall where
  | isRunningQ
  | canStartQ
  | startP
  | stopP
deriving DecidableEq, Repr

/-- `AppController.stop_openob` (`src/ui/core/controller.py` lines 263–278):
early return `ProcessResult(success=False, message="OpenOB not running")`
when the manager reports not running; otherwise delegate to the manager's
`stop` and set `state.openob_running = False` regardless of the result.
The third component is the trace of process-manager operations performed. -/
def stop_openob (env : StopEnv) (st : CtrlState) :
    CtrlState × ProcessResult × List PMCall :=
  if ¬ is_running st.proc then
    (st, ⟨false, "OpenOB not running", 0⟩, [PMCall.isRunningQ])
  else
    let res := managerStop st.proc env
    ({st with proc := res.1, openob_running := false}, res.2,
      [PMCall.isRunningQ, PMCall.stopP])

/-- `AppController.start_openob` (`src/ui/core/controller.py` lines
229–261): `can_start()` gate, `is_redis_running()` gate (which updates
`state.redis_running` as a side effect), then `OpenOBProcessManager.start`;
on success `state.openob_running = True`. -/
def start_openob (env : StartEnv) (useFallback : Bool) (st : CtrlState) :
    CtrlState × ProcessResult × List PMCall :=
  if ¬ env.canStart ∧ ¬ useFallback then
    (st, ⟨false, env.canStartMsg, 0⟩, [PMCall.canStartQ])
  else
    let st1 := {st with redis_running := env.redisStatus = ServiceStatus.RUNNING}
    if ¬ (env.redisStatus = ServiceStatus.RUNNING) then
      (st1, ⟨false, "Redis not running", -1⟩, [PMCall.canStartQ])
    else
      let res := managerStart env st1.args useFallback st1.proc
      let st2 := {st1 with proc := res.1}
      if res.2.success then
        ({st2 with openob_running := true}, res.2,
          [PMCall.canStartQ, PMCall.startP])
      else
        (st2, res.2, [PMCall.canStartQ, PMCall.startP])

/-- `AppController.COOLDOWN_SECONDS`. -/
def COOLDOWN_SECONDS : Int := 5

/-- `AppController.toggle_openob` (`src/ui/core/controller.py` lines
285–296): refuse during cooldown; otherwise `is_openob_running()` (which
refreshes `state.openob_running` from the manager), then stop (starting the
cooldown on successful stop) or start. -/
def toggle_openob (senv : StartEnv) (penv : StopEnv) (st : CtrlState) :
    CtrlState × ProcessResult × List PMCall :=
  if st.cooldown_active then
    (st, ⟨false, "Cooldown active", 0⟩, [])
  else
    let running := is_running st.proc
    let st1 := {st with openob_running := running}
    if running then
      let res := stop_openob penv st1
      if res.2.1.success then
        ({res.1 with cooldown_active := true, cooldown_remaining := COOLDOWN_SECONDS},
          res.2.1, PMCall.isRunningQ :: res.2.2)
      else
        (res.1, res.2.1, PMCall.isRunningQ :: res.2.2)
    else
      let res := start_openob senv false st1
      (res.1, res.2.1, PMCall.isRunningQ :: res.2.2)

/-! ## models.py: VUState and decay -/

/-- `VUState` from `src/ui/core/models.py` (channel levels as exact
rationals). -/
structure VUState where
  left : ℚ
  right : ℚ
  has_real_data : Bool
deriving DecidableEq, Repr

/-- One decay step on a single channel value: `v *= factor`, then snap to
exactly 0 when the result is below `threshold` (`VUState.decay`, lines
49–56 of `src/ui/core/models.py`, per channel). -/
def decayVal (factor threshold v : ℚ) : ℚ :=
  if v * factor < threshold then 0 else v * factor

/-- `VUState.decay(factor, threshold)`: both channels decay independently,
`has_real_data` is untouched. -/
def VUState.decay (factor threshold : ℚ) (st : VUState) : VUState :=
  { left := decayVal factor threshold st.left
    right := decayVal factor threshold st.right
    has_real_data := st.has_real_data }

/-- Default decay factor (`factor: float = 0.85`). -/
def DECAY_FACTOR : ℚ := 85 / 100

/-- Default snap threshold (`threshold: float = 0.01`). -/
def DECAY_THRESHOLD : ℚ := 1 / 100

/-- `n` repeated applications of `VUState.decay` with the default
parameters. -/
def decayIter (n : ℕ) (st : VUState) : VUState :=
  (VUState.decay DECAY_FACTOR DECAY_THRESHOLD)^[n] st

/-! ## models.py: LinkConfig

`from_args` tokenises its input with `shlex.split` (falling back to
`str.split`).  On a plain, quote-free argument string both tokenisers are
exactly whitespace splitting, and `to_args` rebuilds the string as
`' '.join(parts)`; the faithful level for the parse/serialise algebra is
therefore the token-list level, which is what is embedded here:
`LinkConfig.from_args` consumes the `parts` list and
`LinkConfig.to_args` produces the `parts` list that the source joins. -/

/-- `LinkConfig` from `src/ui/core/models.py` (lines 69–80) with the
source's field defaults. -/
structure LinkConfig where
  config_host : Option String := none
  node_id : Option String := none
  link_name : Option String := none
  link_mode : Option String := none
  peer_ip : Option String := none
  encoding : String := "pcm"
  sample_rate : String := ""
  jitter_buffer : String := ""
  audio_backend : String := "auto"
deriving DecidableEq, Repr

/-- Python truthiness of an `Optional[str]` value: `None` and `''` are
falsy. -/
def pyTruthyOpt (v : Option String) : Bool :=
  match v with
  | none => false
  | some s => s ≠ ""

/-- The flag-scanning `while` loop of `LinkConfig.from_args` (lines
105–120), fuelled so that it is structural (every iteration consumes at
least one token, so fuel equal to the list length is always enough — see
`scanFlagsAux_adequate`): a recognised flag with an argument stores the
argument and skips both tokens; any other token (unrecognised flag,
argument-less trailing flag, stray value) advances by one. -/
def scanFlagsAux : ℕ → LinkConfig → List String → LinkConfig
  | 0, c, _ => c
  | _ + 1, c, [] => c
  | _ + 1, c, _ :: [] => c
  | fuel + 1, c, opt :: v :: rest =>
    if opt = "-e" then scanFlagsAux fuel {c with encoding := v} rest
    else if opt = "-r" then scanFlagsAux fuel {c with sample_rate := v} rest
    else if opt = "-j" then scanFlagsAux fuel {c with jitter_buffer := v} rest
    else if opt = "-a" then scanFlagsAux fuel {c with audio_backend := v} rest
    else scanFlagsAux fuel c (v :: rest)

/-- The flag scan on a token list. -/
def scanFlags (c : LinkConfig) (l : List String) : LinkConfig :=
  scanFlagsAux l.length c l

/-- `p.startswith('-')` on a Python string: its first character is `-`
(false on the empty string). -/
def startsWithDash (p : String) : Bool :=
  p.toList.head? = some '-'

/-- The positional part of `LinkConfig.from_args` (lines 91–101): the
first four tokens fill host/node/link/mode; a fifth token becomes
`peer_ip` only when it does not start with `-`. -/
def positionalConfig (parts : List String) : LinkConfig :=
  { config_host := parts.get? 0
    node_id := parts.get? 1
    link_name := parts.get? 2
    link_mode := parts.get? 3
    peer_ip :=
      match parts.get? 4 with
      | some p => if ¬ startsWithDash p then some p else none
      | none => none }

/-- `LinkConfig.from_args` over the tokenised argument list: positional
slots, then the flag scan starting at index 5 when a (truthy) peer was
captured and 4 otherwise (`i = 5 if config.peer_ip else 4`). -/
def LinkConfig.from_args (parts : List String) : LinkConfig :=
  let c := positionalConfig parts
  scanFlags c (parts.drop (if pyTruthyOpt c.peer_ip then 5 else 4))

/-- `LinkConfig.to_args` (lines 124–147) producing the `parts` list that
the source joins with spaces: truthy positional fields in order, the peer
only in `tx` mode, then each non-empty flagged field in canonical
`-e -r -j -a` order. -/
def LinkConfig.to_args (c : LinkConfig) : List String :=
  (match c.config_host with | some h => if h ≠ "" then [h] else [] | none => [])
  ++ (match c.node_id with | some n => if n ≠ "" then [n] else [] | none => [])
  ++ (match c.link_name with | some l => if l ≠ "" then [l] else [] | none => [])
  ++ (match c.link_mode with | some m => if m ≠ "" then [m] else [] | none => [])
  ++ (if c.link_mode = some "tx" ∧ pyTruthyOpt c.peer_ip then
        match c.peer_ip with | some p => [p] | none => []
      else [])
  ++ (if c.encoding ≠ "" then ["-e", c.encoding] else [])
  ++ (if c.sample_rate ≠ "" then ["-r", c.sample_rate] else [])
  ++ (if c.jitter_buffer ≠ "" then ["-j", c.jitter_buffer] else [])
  ++ (if c.audio_backend ≠ "" then ["-a", c.audio_backend] else [])

/-! ## redis_service.py: telemetry records and fetch_vu_data -/

/-- A Redis hash as returned by `hgetall` with `decode_responses=True`:
field/value string pairs (`hgetall` of a missing key gives the empty
hash). -/
abbrev Hash := List (String × String)

/-- `data.get(k)` on a hash. -/
def hget (data : Hash) (k : String) : Option String :=
  (data.find? (fun p => p.1 = k)).map (fun p => p.2)

/-- Python `a or b` on `Optional[str]` operands: `a` when truthy
(non-`None`, non-empty), else `b`. -/
def pyOr (a b : Option String) : Option String :=
  if pyTruthyOpt a then a else b

/-- Numeric value of a digit list (most significant first). -/
def digitsVal (ds : List Char) : ℕ :=
  ds.foldl (fun acc c => acc * 10 + (c.toNat - 48)) 0

/-- `float(s)` for an unsigned plain decimal literal: a non-empty digit
run, optionally followed by `.` and a (possibly empty) digit run, with at
least one digit overall.  (Models Python `float` on the plain decimal
strings that occur in telemetry records; exponents, `inf`/`nan`,
underscores and surrounding whitespace are outside the claims and yield
`none` here.) -/
def parseUnsigned (cs : List Char) : Option ℚ :=
  let intPart := cs.takeWhile (fun c => c.isDigit)
  let rest := cs.dropWhile (fun c => c.isDigit)
  match rest with
  | [] => if intPart = [] then none else some ((digitsVal intPart : ℚ))
  | '.' :: frac =>
    if intPart = [] ∧ frac = [] then none
    else if frac.all (fun c => c.isDigit) then
      some ((digitsVal intPart : ℚ) + (digitsVal frac : ℚ) / (10 : ℚ) ^ frac.length)
    else none
  | _ => none

/-- `float(s)`: optional sign, then an unsigned decimal literal; `none`
models the `ValueError` path. -/
def pyFloat (s : String) : Option ℚ :=
  match s.toList with
  | '-' :: rest => (parseUnsigned rest).map (fun q => -q)
  | '+' :: rest => parseUnsigned rest
  | cs => parseUnsigned cs

/-- One attempted match of the regex `-?\d+(?:\.\d+)?` at the head of the
character list: on success returns the matched token and the remaining
characters. -/
def scanNum (cs : List Char) : Option (String × List Char) :=
  let core : List Char → Option (List Char × List Char) := fun l =>
    let ds := l.takeWhile (fun c => c.isDigit)
    let r1 := l.dropWhile (fun c => c.isDigit)
    if ds = [] then none
    else
      match r1 with
      | '.' :: r2 =>
        let fs := r2.takeWhile (fun c => c.isDigit)
        let r3 := r2.dropWhile (fun c => c.isDigit)
        if fs = [] then some (ds, r1) else some (ds ++ '.' :: fs, r3)
      | _ => some (ds, r1)
  match cs with
  | '-' :: rest =>
    match core rest with
    | some (tok, r) => some (('-' :: tok).asString, r)
    | none => none
  | _ =>
    match core cs with
    | some (tok, r) => some (tok.asString, r)
    | none => none

/-- `re.findall(r'-?\d+(?:\.\d+)?', s)`: left-to-right, non-overlapping
matches; on failure at a position, advance one character.  Fuelled
recursion (each step consumes at least one character, so fuel equal to the
input length is always enough). -/
def findNumsAux (fuel : ℕ) (cs : List Char) : List String :=
  match fuel, cs with
  | 0, _ => []
  | _, [] => []
  | fuel + 1, c :: rest =>
    match scanNum (c :: rest) with
    | some (tok, r) => tok :: findNumsAux fuel r
    | none => findNumsAux fuel rest

/-- All numeric tokens of a string, as matched by the source's regex. -/
def findNums (s : String) : List String :=
  findNumsAux s.length s.toList

/-- The final `float` conversion of `_parse_vu_values` (lines 172–178):
`left_val = float(left) if left is not None else None`,
`right_val = float(right) if right is not None else left_val`, with any
`ValueError` collapsing the whole pair to `(None, None)`. -/
def convertPair (left right : Option String) : Option ℚ × Option ℚ :=
  match left, right with
  | none, none => (none, none)
  | some ls, none =>
    match pyFloat ls with
    | some lv => (some lv, some lv)
    | none => (none, none)
  | none, some rs =>
    match pyFloat rs with
    | some rv => (none, some rv)
    | none => (none, none)
  | some ls, some rs =>
    match pyFloat ls, pyFloat rs with
    | some lv, some rv => (some lv, some rv)
    | _, _ => (none, none)

/-- `RedisService._parse_vu_values` (lines 157–178): prioritized synonym
chains for the left and right fields; when both chains produce `None`, a
truthy combined field is mined for numeric tokens (last two as
left/right, a single one duplicated); then the float conversion. -/
def parse_vu_values (data : Hash) : Option ℚ × Option ℚ :=
  let left := pyOr (pyOr (hget data "left_db") (hget data "left")) (hget data "l")
  let right := pyOr (pyOr (hget data "right_db") (hget data "right")) (hget data "r")
  if left = none ∧ right = none then
    let combined :=
      pyOr (pyOr (hget data "audio_level_db") (hget data "audio_level")) (hget data "level")
    if pyTruthyOpt combined then
      let nums := findNums (combined.getD "")
      if nums.length ≥ 2 then
        convertPair (nums.get? (nums.length - 2)) (nums.get? (nums.length - 1))
      else if nums.length = 1 then
        convertPair (nums.get? 0) (nums.get? 0)
      else
        convertPair left right
    else
      convertPair left right
  else
    convertPair left right

/-- `RedisService._parse_timestamp` (lines 180–188): `updated_ts or ts`,
converted with `float`, any conversion failure yielding `None`. -/
def parse_timestamp (data : Hash) : Option ℚ :=
  match pyOr (hget data "updated_ts") (hget data "ts") with
  | some s => pyFloat s
  | none => none

/-- `STALE_THRESHOLD = 5.0` seconds. -/
def STALE_THRESHOLD : ℚ := 5

/-- `VUData` from `src/ui/services/redis_service.py`. -/
structure VUData where
  left_db : ℚ
  right_db : ℚ
  timestamp : Option ℚ
  is_stale : Bool
deriving DecidableEq, Repr

/-- The key built by `fetch_vu_data` (line 125):
`f'openob:{link_name}:vu:{role}'`. -/
def vuKey (link_name role : String) : String :=
  "openob:" ++ link_name ++ ":vu:" ++ role

/-- `RedisService.fetch_vu_data` (lines 111–155).  `connected` models
`self._client` being set; `store` maps each Redis key to its hash (empty
hash for an absent key, which is falsy — the `if not data` early return);
`now` is `time.time()`.  A backend exception in `hgetall` also returns
`None` in the source and is subsumed by the absent-record case. -/
def fetch_vu_data (connected : Bool) (store : String → Hash)
    (link_name role : String) (now : ℚ) : Option VUData :=
  if ¬ connected then none
  else
    let data := store (vuKey link_name role)
    if data = [] then none
    else
      match parse_vu_values data with
      | (some l, some r) =>
        let ts := parse_timestamp data
        let stale :=
          match ts with
          | some t => decide (now - t > STALE_THRESHOLD)
          | none => false
        some ⟨l, r, ts, stale⟩
      | _ => none

/-! ## utils.py: db_to_normalized -/

/-- `db_to_normalized` from `src/ui/services/utils.py` (lines 100–129),
floats idealised as ℝ and `math.pow` as the real power: clamp to
`[min_db, 0]`, rescale linearly to `[0, 1]`, apply the gamma curve.
(The `db_value is None` and `ValueError` guards concern non-numeric
inputs, which do not exist at this level.) -/
noncomputable def db_to_normalized (min_db gamma db_value : ℝ) : ℝ :=
  let db := max min_db (min 0 db_value)
  let linear := (db - min_db) / (0 - min_db)
  linear ^ gamma

/-- Default `min_db = -65.0`. -/
noncomputable def MIN_DB : ℝ := -65

/-- Default `gamma = 0.7`. -/
noncomputable def GAMMA : ℝ := 7 / 10

/-! ## Spec-side definitions

The following definitions are written from the specification's words, not
from the source: the launch-argument grammar
`<config-host> <node-id> <link-name> <tx|rx> [<peer-ip>] [-e <encoding>]
[-r <sample-rate>] [-j <jitter-ms>] [-a <backend>] [-d <device>]`
used to quantify over "well-formed argument strings", and the telemetry
key format the spec claims.  They exist to be compared with the behaviour
of the source-derived definitions above. -/

/-- A plain grammar token: non-empty and not starting with `-` (so it can
neither be mistaken for a flag nor vanish when re-serialised). -/
def goodTok (s : String) : Prop :=
  s ≠ "" ∧ startsWithDash s = false

instance goodTokDecidable (s : String) : Decidable (goodTok s) :=
  inferInstanceAs (Decidable (s ≠ "" ∧ startsWithDash s = false))

/-- One flagged option of the grammar: a flag from
`{-e, -r, -j, -a, -d}` with a plain token as its argument. -/
def goodFlagPair (fv : String × String) : Prop :=
  (fv.1 = "-e" ∨ fv.1 = "-r" ∨ fv.1 = "-j" ∨ fv.1 = "-a" ∨ fv.1 = "-d")
    ∧ goodTok fv.2

/-- Token lists matching the spec's launch-argument grammar: four
positional tokens (the fourth being `tx` or `rx`), an optional peer token,
then flagged options. -/
def WellFormed (parts : List String) : Prop :=
  ∃ (h n l mode : String) (peer : List String) (fps : List (String × String)),
    goodTok h ∧ goodTok n ∧ goodTok l ∧ (mode = "tx" ∨ mode = "rx") ∧
    (peer = [] ∨ ∃ p, peer = [p] ∧ goodTok p) ∧
    (∀ fv ∈ fps, goodFlagPair fv) ∧
    parts = [h, n, l, mode] ++ peer ++ fps.flatMap (fun fv => [fv.1, fv.2])

/-- As `WellFormed`, but a peer token may only be present in `tx` role
(the restriction the round-trip counterexample forces). -/
def WellFormedTxPeer (parts : List String) : Prop :=
  ∃ (h n l mode : String) (peer : List String) (fps : List (String × String)),
    goodTok h ∧ goodTok n ∧ goodTok l ∧ (mode = "tx" ∨ mode = "rx") ∧
    (peer = [] ∨ (mode = "tx" ∧ ∃ p, peer = [p] ∧ goodTok p)) ∧
    (∀ fv ∈ fps, goodFlagPair fv) ∧
    parts = [h, n, l, mode] ++ peer ++ fps.flatMap (fun fv => [fv.1, fv.2])

/-- The telemetry key format claimed by the spec:
`telemetry:<link-name>:level:<role>`. -/
def specTelemetryKey (link_name role : String) : String :=
  "telemetry:" ++ link_name ++ ":level:" ++ role

/-- Proof-infrastructure view of one iteration of the flag scan on a
flag/value pair: the field update performed when the flag is recognised,
the identity otherwise. -/
def applyPair (c : LinkConfig) (fv : String × String) : LinkConfig :=
  if fv.1 = "-e" then {c with encoding := fv.2}
  else if fv.1 = "-r" then {c with sample_rate := fv.2}
  else if fv.1 = "-j" then {c with jitter_buffer := fv.2}
  else if fv.1 = "-a" then {c with audio_backend := fv.2}
  else c

/-- Token list of a list of flag/value pairs. -/
def flatPairs (fps : List (String × String)) : List String :=
  fps.flatMap (fun fv => [fv.1, fv.2])

/-- The configuration produced by the positional slots of a
grammar-shaped token list. -/
def basePositional (h n l mode : String) (peer : Option String) : LinkConfig :=
  { config_host := some h, node_id := some n, link_name := some l,
    link_mode := some mode, peer_ip := peer }

/-- The flag/value pair emitted by `to_args` for one optional field:
present exactly when the field is non-empty. -/
def optPair (flag val : String) : List (String × String) :=
  if val ≠ "" then [(flag, val)] else []

/-! ## Theorems -/

/-- C4: while `cooldown_active` is true, `toggle_openob` returns
`success=false` with message "Cooldown active", performs no
process-manager operation (empty call trace), and leaves every state
field unchanged. -/
theorem c4_toggle_cooldown (senv : StartEnv) (penv : StopEnv) (st : CtrlState)
    (h : st.cooldown_active = true) :
    toggle_openob senv penv st = (st, ⟨false, "Cooldown active", 0⟩, []) := by
  simp [toggle_openob, h]

/-- C4 witness: a concrete cooldown-active state. -/
theorem c4_toggle_cooldown_witness :
    toggle_openob ⟨true, "", ServiceStatus.RUNNING, false, ""⟩
        ⟨false, false, false, ""⟩ ⟨false, false, true, 3, "a b", none⟩
      = (⟨false, false, true, 3, "a b", none⟩, ⟨false, "Cooldown active", 0⟩, []) :=
  c4_toggle_cooldown ⟨true, "", ServiceStatus.RUNNING, false, ""⟩
    ⟨false, false, false, ""⟩ ⟨false, false, true, 3, "a b", none⟩ (by decide)

/-- C8: when the worker process is not running, `AppController.stop_openob`
returns `success=false` and the whole controller state — in particular
`openob_running` and the process handle — unchanged, and
`OpenOBProcessManager.stop` likewise fails without touching the handle. -/
theorem c8_stop_not_running (penv : StopEnv) (st : CtrlState)
    (h : is_running st.proc = false) :
    stop_openob penv st = (st, ⟨false, "OpenOB not running", 0⟩, [PMCall.isRunningQ])
      ∧ managerStop st.proc penv = (st.proc, ⟨false, "OpenOB not running", 0⟩) := by
  constructor
  · simp [stop_openob, h]
  · simp [managerStop, h]

/-- C8 witness: a concrete state whose process handle is absent. -/
theorem c8_stop_not_running_witness :
    stop_openob ⟨false, false, false, "e"⟩ ⟨true, true, false, 0, "x", none⟩
        = (⟨true, true, false, 0, "x", none⟩, ⟨false, "OpenOB not running", 0⟩,
            [PMCall.isRunningQ])
      ∧ managerStop (none : ProcHandle) ⟨false, false, false, "e"⟩
          = (none, ⟨false, "OpenOB not running", 0⟩) :=
  c8_stop_not_running ⟨false, false, false, "e"⟩ ⟨true, true, false, 0, "x", none⟩
    (by decide)

/-- C9: whenever `OpenOBProcessManager.stop` is called with the process
running, the internal handle is `None` on every return path — graceful,
forced-kill and exception paths alike — so `is_running` is false
immediately afterwards. -/
theorem c9_stop_clears_handle (penv : StopEnv) (proc : ProcHandle)
    (h : is_running proc = true) :
    (managerStop proc penv).1 = none ∧ is_running (managerStop proc penv).1 = false := by
  have h1 : (managerStop proc penv).1 = none := by
    simp only [managerStop, h]
    rcases penv with ⟨t, w, k, m⟩
    rcases t <;> rcases w <;> rcases k <;> simp [is_running]
  exact ⟨h1, by simp [h1, is_running]⟩

/-- C9 witness: a live handle, on the forced-kill path (`terminate`
succeeds, `wait` times out, `kill` succeeds). -/
theorem c9_stop_clears_handle_witness :
    (managerStop (some true) ⟨false, true, false, "boom"⟩).1 = none
      ∧ is_running (managerStop (some true) ⟨false, true, false, "boom"⟩).1 = false :=
  c9_stop_clears_handle ⟨false, true, false, "boom"⟩ (some true) (by decide)

/-- C3 counterexample: `LinkConfig.from_args` does not store the argument
of `-d` anywhere — parsing `h n l rx -d hw0` yields exactly the same
configuration as parsing `h n l rx` (there is no `alsaDevice` field on
`LinkConfig`; `-d` is skipped as an unrecognised flag), contradicting the
claim that the scanned flag set includes `-d`. -/
theorem c3_counterexample :
    LinkConfig.from_args ["h", "n", "l", "rx", "-d", "hw0"]
      = LinkConfig.from_args ["h", "n", "l", "rx"] := by
  decide

/-- Fuel does not matter for the flag scan once it is at least the number
of remaining tokens (each loop iteration consumes at least one token). -/
theorem scanFlagsAux_congr : ∀ (f₁ f₂ : ℕ) (c : LinkConfig) (l : List String),
    l.length ≤ f₁ → l.length ≤ f₂ → scanFlagsAux f₁ c l = scanFlagsAux f₂ c l := by
  intro f₁
  induction f₁ with
  | zero =>
    intro f₂ c l h₁ h₂
    have hl : l = [] := List.eq_nil_of_length_eq_zero (Nat.le_zero.mp h₁)
    subst hl
    cases f₂ <;> simp [scanFlagsAux]
  | succ n ih =>
    intro f₂ c l h₁ h₂
    cases f₂ with
    | zero =>
      have hl : l = [] := List.eq_nil_of_length_eq_zero (Nat.le_zero.mp h₂)
      subst hl
      simp [scanFlagsAux]
    | succ m =>
      cases l with
      | nil => simp [scanFlagsAux]
      | cons opt t =>
        cases t with
        | nil => simp [scanFlagsAux]
        | cons v rest =>
          have hr₁ : rest.length ≤ n := by simp at h₁; omega
          have hr₂ : rest.length ≤ m := by simp at h₂; omega
          have hv₁ : (v :: rest).length ≤ n := by simp at h₁ ⊢; omega
          have hv₂ : (v :: rest).length ≤ m := by simp at h₂ ⊢; omega
          simp only [scanFlagsAux]
          split_ifs <;>
            first
              | exact ih _ _ _ hr₁ hr₂
              | exact ih _ _ _ hv₁ hv₂

/-- Unfolding equation of the flag scan: `-e` stores the encoding. -/
theorem scanFlags_cons_e (c : LinkConfig) (v : String) (rest : List String) :
    scanFlags c ("-e" :: v :: rest) = scanFlags {c with encoding := v} rest := by
  show scanFlagsAux (rest.length + 1 + 1) c ("-e" :: v :: rest) = _
  simp only [scanFlagsAux, if_pos rfl]
  exact scanFlagsAux_congr _ _ _ _ (Nat.le_succ _) le_rfl

/-- Unfolding equation of the flag scan: `-r` stores the sample rate. -/
theorem scanFlags_cons_r (c : LinkConfig) (v : String) (rest : List String) :
    scanFlags c ("-r" :: v :: rest) = scanFlags {c with sample_rate := v} rest := by
  show scanFlagsAux (rest.length + 1 + 1) c ("-r" :: v :: rest) = _
  simp only [scanFlagsAux]
  simp only [show ("-r" = "-e") = False by simp, if_false, if_pos rfl]
  exact scanFlagsAux_congr _ _ _ _ (Nat.le_succ _) le_rfl

/-- Unfolding equation of the flag scan: `-j` stores the jitter buffer. -/
theorem scanFlags_cons_j (c : LinkConfig) (v : String) (rest : List String) :
    scanFlags c ("-j" :: v :: rest) = scanFlags {c with jitter_buffer := v} rest := by
  show scanFlagsAux (rest.length + 1 + 1) c ("-j" :: v :: rest) = _
  simp only [scanFlagsAux]
  simp only [show ("-j" = "-e") = False by simp, show ("-j" = "-r") = False by simp,
    if_false, if_pos rfl]
  exact scanFlagsAux_congr _ _ _ _ (Nat.le_succ _) le_rfl

/-- Unfolding equation of the flag scan: `-a` stores the audio backend. -/
theorem scanFlags_cons_a (c : LinkConfig) (v : String) (rest : List String) :
    scanFlags c ("-a" :: v :: rest) = scanFlags {c with audio_backend := v} rest := by
  show scanFlagsAux (rest.length + 1 + 1) c ("-a" :: v :: rest) = _
  simp only [scanFlagsAux]
  simp only [show ("-a" = "-e") = False by simp, show ("-a" = "-r") = False by simp,
    show ("-a" = "-j") = False by simp, if_false, if_pos rfl]
  exact scanFlagsAux_congr _ _ _ _ (Nat.le_succ _) le_rfl

/-- Unfolding equation of the flag scan: any other token is skipped. -/
theorem scanFlags_skip (c : LinkConfig) (opt v : String) (rest : List String)
    (h1 : opt ≠ "-e") (h2 : opt ≠ "-r") (h3 : opt ≠ "-j") (h4 : opt ≠ "-a") :
    scanFlags c (opt :: v :: rest) = scanFlags c (v :: rest) := by
  show scanFlagsAux (rest.length + 1 + 1) c (opt :: v :: rest) = _
  simp only [scanFlagsAux]
  rw [if_neg h1, if_neg h2, if_neg h3, if_neg h4]
  rfl

/-- Unfolding equation of the flag scan: a single trailing token (for
instance an argument-less flag) is dropped and the scan ends. -/
theorem scanFlags_single (c : LinkConfig) (opt : String) :
    scanFlags c [opt] = c :=
  rfl

/-- Unfolding equation of the flag scan: an exhausted token list ends the
scan. -/
theorem scanFlags_nil (c : LinkConfig) : scanFlags c [] = c :=
  rfl

/-- C3 (amended): `LinkConfig.from_args` is the total positional parse
followed by the left-to-right flag scan; the scan recognises exactly
`{-e, -r, -j, -a}`, storing each recognised flag’s argument in its field,
and skips any other token — unrecognised flags such as `-d` included —
and any argument-less trailing flag, without error (`LinkConfig` has no
`alsaDevice` field; `-d` is handled by the config-storage layer, not by
`LinkConfig.from_args`). -/
theorem c3_flag_scan :
    (∀ parts, LinkConfig.from_args parts
        = scanFlags (positionalConfig parts)
            (parts.drop (if pyTruthyOpt (positionalConfig parts).peer_ip then 5 else 4)))
    ∧ (∀ c v rest, scanFlags c ("-e" :: v :: rest) = scanFlags {c with encoding := v} rest)
    ∧ (∀ c v rest, scanFlags c ("-r" :: v :: rest) = scanFlags {c with sample_rate := v} rest)
    ∧ (∀ c v rest, scanFlags c ("-j" :: v :: rest) = scanFlags {c with jitter_buffer := v} rest)
    ∧ (∀ c v rest, scanFlags c ("-a" :: v :: rest) = scanFlags {c with audio_backend := v} rest)
    ∧ (∀ c opt v rest, opt ≠ "-e" → opt ≠ "-r" → opt ≠ "-j" → opt ≠ "-a" →
        scanFlags c (opt :: v :: rest) = scanFlags c (v :: rest))
    ∧ (∀ c opt, scanFlags c [opt] = c) :=
  ⟨fun _ => rfl, scanFlags_cons_e, scanFlags_cons_r, scanFlags_cons_j,
    scanFlags_cons_a, scanFlags_skip, scanFlags_single⟩

/-- C3 witness: the skip clause applied to the unrecognised flag `-d`. -/
theorem c3_flag_scan_witness :
    scanFlags {} ["-d", "hw0"] = scanFlags {} ["hw0"] :=
  c3_flag_scan.2.2.2.2.2.1 {} "-d" "hw0" [] (by decide) (by decide) (by decide)
    (by decide)

/-- C1 counterexample: a fresh, numerically valid level record stored
under the spec's claimed key `telemetry:<link>:level:<role>` is invisible
to `fetch_vu_data` (it returns `None`), while the same record under
`openob:<link>:vu:<role>` is returned — the fetch does not read the
claimed key. -/
theorem c1_counterexample :
    fetch_vu_data true
        (fun k => if k = specTelemetryKey "transmission" "tx" then
            [("left_db", "-20"), ("right_db", "-10")] else [])
        "transmission" "tx" 0 = none
    ∧ fetch_vu_data true
        (fun k => if k = vuKey "transmission" "tx" then
            [("left_db", "-20"), ("right_db", "-10")] else [])
        "transmission" "tx" 0 = some ⟨-20, -10, none, false⟩ := by
  constructor <;> decide

/-- C1 (amended): for every link name and role, `fetch_vu_data` reads the
per-role level record under the key `openob:<link-name>:vu:<role>` (not
`telemetry:<link-name>:level:<role>`): its result depends on the store
only through that key, whose format is `"openob:" ++ link ++ ":vu:" ++
role`. -/
theorem c1_key_locality (connected : Bool) (store store' : String → Hash)
    (link role : String) (now : ℚ)
    (h : store (vuKey link role) = store' (vuKey link role)) :
    fetch_vu_data connected store link role now
        = fetch_vu_data connected store' link role now
    ∧ vuKey link role = "openob:" ++ link ++ ":vu:" ++ role := by
  constructor
  · simp only [fetch_vu_data, h]
  · rfl

/-- C1 witness: two stores that agree only on the `openob:…:vu:…` key
give identical fetch results. -/
theorem c1_key_locality_witness :
    fetch_vu_data true (fun _ => [("left_db", "-20"), ("right_db", "-10")])
        "transmission" "tx" 0
      = fetch_vu_data true
          (fun k => if k = "openob:transmission:vu:tx" then
              [("left_db", "-20"), ("right_db", "-10")] else [("junk", "1")])
          "transmission" "tx" 0
    ∧ vuKey "transmission" "tx" = "openob:" ++ "transmission" ++ ":vu:" ++ "tx" :=
  c1_key_locality true (fun _ => [("left_db", "-20"), ("right_db", "-10")])
    (fun k => if k = "openob:transmission:vu:tx" then
        [("left_db", "-20"), ("right_db", "-10")] else [("junk", "1")])
    "transmission" "tx" 0 (by decide)

/-- C5: a telemetry record with a parseable update timestamp older than
the 5-second staleness threshold relative to the current wall-clock time
is returned flagged `is_stale = true`, even though its left/right fields
are valid numbers. -/
theorem c5_stale_flag (data : Hash) (link role : String) (now ts l r : ℚ)
    (hts : parse_timestamp data = some ts)
    (hage : now - ts > STALE_THRESHOLD)
    (hlr : parse_vu_values data = (some l, some r)) :
    fetch_vu_data true (fun _ => data) link role now = some ⟨l, r, some ts, true⟩ := by
  have hne : data ≠ [] := by
    intro h
    rw [h] at hts
    simp [parse_timestamp, hget, pyOr, pyTruthyOpt] at hts
  simp [fetch_vu_data, hne, hlr, hts, hage]

/-- C5 witness: a concrete record 100 seconds old at `now = 200`. -/
theorem c5_stale_flag_witness :
    fetch_vu_data true
        (fun _ => [("left_db", "-20"), ("right_db", "-10"), ("ts", "100")])
        "transmission" "tx" 200
      = some ⟨-20, -10, some 100, true⟩ :=
  c5_stale_flag [("left_db", "-20"), ("right_db", "-10"), ("ts", "100")]
    "transmission" "tx" 200 100 (-20) (-10) (by decide)
    (by norm_num [STALE_THRESHOLD]) (by decide)

/-- C10: a record with a numeric left-channel field (via the
`left_db`/`left`/`l` chain) but none of the right-channel fields
`right_db`/`right`/`r` and no combined field yields a sample (not `None`)
whose `right_db` equals its `left_db`: the single channel value is
duplicated. -/
theorem c10_single_channel_duplicated (data : Hash) (link role : String)
    (now : ℚ) (s : String) (v : ℚ)
    (hL : pyOr (pyOr (hget data "left_db") (hget data "left")) (hget data "l") = some s)
    (hv : pyFloat s = some v)
    (hR1 : hget data "right_db" = none) (hR2 : hget data "right" = none)
    (hR3 : hget data "r" = none)
    (hC1 : hget data "audio_level_db" = none) (hC2 : hget data "audio_level" = none)
    (hC3 : hget data "level" = none) :
    ∃ vud, fetch_vu_data true (fun _ => data) link role now = some vud
      ∧ vud.left_db = v ∧ vud.right_db = v := by
  have hpv : parse_vu_values data = (some v, some v) := by
    simp only [parse_vu_values, hL, hR1, hR2, hR3]
    simp [pyOr, pyTruthyOpt, convertPair, hv]
  have hne : data ≠ [] := by
    intro h
    rw [h] at hL
    simp [hget, pyOr, pyTruthyOpt] at hL
  refine ⟨⟨v, v, parse_timestamp data, ?_⟩, ?_, rfl, rfl⟩
  · exact
      match parse_timestamp data with
      | some t => decide (now - t > STALE_THRESHOLD)
      | none => false
  · simp [fetch_vu_data, hne, hpv]

/-- C10 witness: a concrete record carrying only `l = "-20"`. -/
theorem c10_single_channel_duplicated_witness :
    ∃ vud, fetch_vu_data true (fun _ => [("l", "-20")]) "transmission" "rx" 0
        = some vud
      ∧ vud.left_db = (-20 : ℚ) ∧ vud.right_db = (-20 : ℚ) :=
  c10_single_channel_duplicated [("l", "-20")] "transmission" "rx" 0 "-20" (-20)
    (by decide) (by decide) (by decide) (by decide) (by decide) (by decide)
    (by decide) (by decide)

/-- The default decay factor is strictly between 0 and 1, and the snap
threshold is positive. -/
theorem decay_params :
    0 < DECAY_FACTOR ∧ DECAY_FACTOR < 1 ∧ 0 < DECAY_THRESHOLD := by
  norm_num [DECAY_FACTOR, DECAY_THRESHOLD]

/-- Decaying 0 gives 0 (the snap branch fires). -/
theorem decayVal_zero : decayVal DECAY_FACTOR DECAY_THRESHOLD 0 = 0 := by
  norm_num [decayVal, DECAY_FACTOR, DECAY_THRESHOLD]

/-- One decay step preserves nonnegativity. -/
theorem decayVal_nonneg (v : ℚ) (h : 0 ≤ v) :
    0 ≤ decayVal DECAY_FACTOR DECAY_THRESHOLD v := by
  unfold decayVal
  split
  · exact le_refl 0
  · have := decay_params.1
    positivity

/-- One decay step never increases a nonnegative value. -/
theorem decayVal_le (v : ℚ) (h : 0 ≤ v) :
    decayVal DECAY_FACTOR DECAY_THRESHOLD v ≤ v := by
  unfold decayVal
  split
  · exact h
  · nlinarith [decay_params.1, decay_params.2.1]

/-- 0 is absorbing for the decay iteration. -/
theorem decayVal_iter_zero (k : ℕ) :
    (decayVal DECAY_FACTOR DECAY_THRESHOLD)^[k] 0 = 0 := by
  induction k with
  | zero => rfl
  | succ n ih => rw [Function.iterate_succ_apply', ih, decayVal_zero]

/-- After `n` decay steps the value is either exactly 0 (a snap happened)
or exactly the initial value scaled by the n-th power of the factor. -/
theorem decayVal_iter_form (v : ℚ) (n : ℕ) :
    (decayVal DECAY_FACTOR DECAY_THRESHOLD)^[n] v = 0
    ∨ (decayVal DECAY_FACTOR DECAY_THRESHOLD)^[n] v = v * DECAY_FACTOR ^ n := by
  induction n with
  | zero => right; simp
  | succ n ih =>
    rw [Function.iterate_succ_apply']
    rcases ih with h | h
    · left; rw [h, decayVal_zero]
    · rw [h]
      unfold decayVal
      split
      · left; rfl
      · right; rw [pow_succ, mul_assoc]

/-- Nonnegativity is preserved along the whole iteration. -/
theorem decayVal_iter_nonneg (v : ℚ) (h : 0 ≤ v) (n : ℕ) :
    0 ≤ (decayVal DECAY_FACTOR DECAY_THRESHOLD)^[n] v := by
  induction n with
  | zero => exact h
  | succ n ih =>
    rw [Function.iterate_succ_apply']
    exact decayVal_nonneg _ ih

/-- From a positive start the decay iteration reaches exactly 0 after a
bounded number of steps and then stays there. -/
theorem decayVal_iter_eventually_zero (v : ℚ) (h : 0 < v) :
    ∃ n, ∀ m, n ≤ m → (decayVal DECAY_FACTOR DECAY_THRESHOLD)^[m] v = 0 := by
  obtain ⟨n, hn⟩ :=
    exists_pow_lt_of_lt_one (div_pos decay_params.2.2 h) decay_params.2.1
  have hvn : v * DECAY_FACTOR ^ n < DECAY_THRESHOLD := by
    rw [lt_div_iff₀ h, mul_comm] at hn
    exact hn
  have hz : (decayVal DECAY_FACTOR DECAY_THRESHOLD)^[n + 1] v = 0 := by
    rw [Function.iterate_succ_apply']
    rcases decayVal_iter_form v n with hf | hf
    · rw [hf, decayVal_zero]
    · rw [hf]
      unfold decayVal
      have hnn : 0 ≤ v * DECAY_FACTOR ^ n :=
        mul_nonneg (le_of_lt h) (pow_nonneg (le_of_lt decay_params.1) n)
      have hcond : v * DECAY_FACTOR ^ n * DECAY_FACTOR < DECAY_THRESHOLD := by
        nlinarith [decay_params.1, decay_params.2.1]
      rw [if_pos hcond]
  refine ⟨n + 1, fun m hm => ?_⟩
  have : m = (m - (n + 1)) + (n + 1) := (Nat.sub_add_cancel hm).symm
  rw [this, Function.iterate_add_apply, hz, decayVal_iter_zero]

/-- `decayIter` acts channel-wise as the scalar decay iteration and never
touches `has_real_data`. -/
theorem decayIter_eq (n : ℕ) (st : VUState) :
    decayIter n st =
      ⟨(decayVal DECAY_FACTOR DECAY_THRESHOLD)^[n] st.left,
        (decayVal DECAY_FACTOR DECAY_THRESHOLD)^[n] st.right,
        st.has_real_data⟩ := by
  induction n with
  | zero => rfl
  | succ n ih =>
    unfold decayIter at ih ⊢
    rw [Function.iterate_succ_apply', Function.iterate_succ_apply',
      Function.iterate_succ_apply', ih]
    rfl

/-- C7: from any state with positive channel levels, repeated
`VUState.decay` (factor 0.85, snap threshold 0.01) brings both channels to
exactly 0 within a bounded number of iterations and keeps them there, and
each channel's value sequence is non-increasing — it never oscillates. -/
theorem c7_decay_convergence (st : VUState) (hl : 0 < st.left) (hr : 0 < st.right) :
    (∃ n, ∀ m, n ≤ m → (decayIter m st).left = 0 ∧ (decayIter m st).right = 0)
    ∧ (∀ n, (decayIter (n + 1) st).left ≤ (decayIter n st).left
        ∧ (decayIter (n + 1) st).right ≤ (decayIter n st).right) := by
  constructor
  · obtain ⟨nl, hnl⟩ := decayVal_iter_eventually_zero st.left hl
    obtain ⟨nr, hnr⟩ := decayVal_iter_eventually_zero st.right hr
    refine ⟨max nl nr, fun m hm => ?_⟩
    rw [decayIter_eq]
    exact ⟨hnl m (le_trans (le_max_left _ _) hm),
      hnr m (le_trans (le_max_right _ _) hm)⟩
  · intro n
    simp only [decayIter_eq]
    constructor
    · rw [Function.iterate_succ_apply']
      exact decayVal_le _ (decayVal_iter_nonneg _ (le_of_lt hl) n)
    · rw [Function.iterate_succ_apply']
      exact decayVal_le _ (decayVal_iter_nonneg _ (le_of_lt hr) n)

/-- C7 witness: concrete positive levels 1 and 1/2. -/
theorem c7_decay_convergence_witness :
    (∃ n, ∀ m, n ≤ m → (decayIter m ⟨1, 1/2, false⟩).left = 0
        ∧ (decayIter m ⟨1, 1/2, false⟩).right = 0)
    ∧ (∀ n, (decayIter (n + 1) ⟨1, 1/2, false⟩).left
          ≤ (decayIter n ⟨1, 1/2, false⟩).left
        ∧ (decayIter (n + 1) ⟨1, 1/2, false⟩).right
          ≤ (decayIter n ⟨1, 1/2, false⟩).right) :=
  c7_decay_convergence ⟨1, 1/2, false⟩ (by norm_num) (by norm_num)

/-- `db_to_normalized` with the default parameters, written with the
clamp-and-rescale arithmetic carried out. -/
theorem db_to_normalized_eq (x : ℝ) :
    db_to_normalized MIN_DB GAMMA x
      = ((max (-65 : ℝ) (min 0 x) + 65) / 65) ^ (7 / 10 : ℝ) := by
  unfold db_to_normalized MIN_DB GAMMA
  norm_num

/-- The linear (pre-gamma) stage lands in `[0, 1]`. -/
theorem db_linear_mem (x : ℝ) :
    0 ≤ (max (-65 : ℝ) (min 0 x) + 65) / 65
    ∧ (max (-65 : ℝ) (min 0 x) + 65) / 65 ≤ 1 := by
  constructor
  · have h : (-65 : ℝ) ≤ max (-65) (min 0 x) := le_max_left _ _
    have h65 : (0 : ℝ) ≤ max (-65) (min 0 x) + 65 := by linarith
    positivity
  · rw [div_le_one (by norm_num : (0:ℝ) < 65)]
    have h : max (-65 : ℝ) (min 0 x) ≤ 0 :=
      max_le (by norm_num) (min_le_left _ _)
    linarith

/-- C6: with the defaults `min_db = -65`, `gamma = 0.7`,
`db_to_normalized` maps `-65` to exactly `0.0` and `0` to exactly `1.0`,
is monotonically non-decreasing in its input, and always lands in
`[0, 1]`. -/
theorem c6_db_to_normalized :
    db_to_normalized MIN_DB GAMMA (-65) = 0
    ∧ db_to_normalized MIN_DB GAMMA 0 = 1
    ∧ (∀ a b : ℝ, a ≤ b →
        db_to_normalized MIN_DB GAMMA a ≤ db_to_normalized MIN_DB GAMMA b)
    ∧ (∀ x : ℝ, 0 ≤ db_to_normalized MIN_DB GAMMA x
        ∧ db_to_normalized MIN_DB GAMMA x ≤ 1) := by
  refine ⟨?_, ?_, ?_, ?_⟩
  · rw [db_to_normalized_eq]
    have h : max (-65 : ℝ) (min 0 (-65)) = -65 := by
      rw [min_eq_right (by norm_num : (-65 : ℝ) ≤ 0), max_self]
    rw [h]
    norm_num
  · rw [db_to_normalized_eq]
    have h : max (-65 : ℝ) (min 0 0) = 0 := by
      rw [min_self, max_eq_right (by norm_num : (-65 : ℝ) ≤ 0)]
    rw [h]
    norm_num
  · intro a b hab
    rw [db_to_normalized_eq, db_to_normalized_eq]
    refine Real.rpow_le_rpow (db_linear_mem a).1 ?_ (by norm_num)
    have h : max (-65 : ℝ) (min 0 a) ≤ max (-65) (min 0 b) :=
      max_le_max (le_refl _) (min_le_min (le_refl _) hab)
    exact div_le_div_of_nonneg_right (by linarith) (by norm_num)
  · intro x
    rw [db_to_normalized_eq]
    exact ⟨Real.rpow_nonneg (db_linear_mem x).1 _,
      Real.rpow_le_one (db_linear_mem x).1 (db_linear_mem x).2 (by norm_num)⟩

/-- C6 witness: monotonicity and range instantiated at concrete inputs,
together with the two exact endpoint values. -/
theorem c6_db_to_normalized_witness :
    db_to_normalized MIN_DB GAMMA (-65) = 0
    ∧ db_to_normalized MIN_DB GAMMA 0 = 1
    ∧ db_to_normalized MIN_DB GAMMA (-30) ≤ db_to_normalized MIN_DB GAMMA (-10)
    ∧ 0 ≤ db_to_normalized MIN_DB GAMMA (-100)
    ∧ db_to_normalized MIN_DB GAMMA (-100) ≤ 1 :=
  ⟨c6_db_to_normalized.1, c6_db_to_normalized.2.1,
    c6_db_to_normalized.2.2.1 (-30) (-10) (by norm_num),
    (c6_db_to_normalized.2.2.2 (-100)).1, (c6_db_to_normalized.2.2.2 (-100)).2⟩

/-- A non-flag token is skipped by the scan whatever follows (also at the
end of the list). -/
theorem scanFlags_cons_nonflag (c : LinkConfig) (v : String) (l : List String)
    (h1 : v ≠ "-e") (h2 : v ≠ "-r") (h3 : v ≠ "-j") (h4 : v ≠ "-a") :
    scanFlags c (v :: l) = scanFlags c l := by
  cases l with
  | nil => rfl
  | cons w r => exact scanFlags_skip c v w r h1 h2 h3 h4

/-- Every grammar flag starts with a dash. -/
theorem goodFlagPair_dash (fv : String × String) (h : goodFlagPair fv) :
    startsWithDash fv.1 = true := by
  rcases h.1 with h1 | h1 | h1 | h1 | h1 <;> rw [h1] <;> decide

/-- A token that does not start with a dash is none of the recognised
flags. -/
theorem not_dash_not_flag (v : String) (h : startsWithDash v = false) :
    v ≠ "-e" ∧ v ≠ "-r" ∧ v ≠ "-j" ∧ v ≠ "-a" := by
  refine ⟨?_, ?_, ?_, ?_⟩ <;> intro hv <;> rw [hv] at h <;> exact absurd h (by decide)

/-- On a well-formed flag region the scan is the fold of the per-pair
field updates. -/
theorem scanFlags_pairs (fps : List (String × String)) :
    ∀ (c : LinkConfig), (∀ fv ∈ fps, goodFlagPair fv) →
      scanFlags c (flatPairs fps) = fps.foldl applyPair c := by
  induction fps with
  | nil => intro c _; rfl
  | cons fv rest ih =>
    intro c hall
    have hfv : goodFlagPair fv := hall fv (List.mem_cons_self fv rest)
    have hrest : ∀ x ∈ rest, goodFlagPair x :=
      fun x hx => hall x (List.mem_cons_of_mem fv hx)
    have hflat : flatPairs (fv :: rest) = fv.1 :: fv.2 :: flatPairs rest := rfl
    rw [hflat, List.foldl_cons]
    have hv := not_dash_not_flag fv.2 hfv.2.2
    rcases hfv.1 with hf | hf | hf | hf | hf
    · rw [hf, scanFlags_cons_e]
      rw [ih _ hrest]
      have : applyPair c fv = {c with encoding := fv.2} := by
        simp [applyPair, hf]
      rw [this]
    · rw [hf, scanFlags_cons_r]
      rw [ih _ hrest]
      have : applyPair c fv = {c with sample_rate := fv.2} := by
        simp [applyPair, hf]
      rw [this]
    · rw [hf, scanFlags_cons_j]
      rw [ih _ hrest]
      have : applyPair c fv = {c with jitter_buffer := fv.2} := by
        simp [applyPair, hf]
      rw [this]
    · rw [hf, scanFlags_cons_a]
      rw [ih _ hrest]
      have : applyPair c fv = {c with audio_backend := fv.2} := by
        simp [applyPair, hf]
      rw [this]
    · rw [hf]
      rw [scanFlags_cons_nonflag c "-d" (fv.2 :: flatPairs rest)
        (by decide) (by decide) (by decide) (by decide)]
      rw [scanFlags_cons_nonflag c fv.2 (flatPairs rest)
        hv.1 hv.2.1 hv.2.2.1 hv.2.2.2]
      rw [ih _ hrest]
      have : applyPair c fv = c := by
        simp [applyPair, hf]
      rw [this]

/-- `LinkConfig.from_args` on a grammar-shaped token list: the positional
slots fill the base configuration (the peer slot only when a peer token is
present — a flag token in fifth position starts with a dash and is never
taken as a peer) and the flag region folds the per-pair updates. -/
theorem from_args_grammar (h n l mode : String) (peer : List String)
    (fps : List (String × String))
    (hpeer : peer = [] ∨ ∃ p, peer = [p] ∧ goodTok p)
    (hfps : ∀ fv ∈ fps, goodFlagPair fv) :
    LinkConfig.from_args ([h, n, l, mode] ++ peer ++ flatPairs fps)
      = fps.foldl applyPair (basePositional h n l mode peer.head?) := by
  rcases hpeer with hpe | ⟨p, hpe, hp⟩
  · subst hpe
    cases fps with
    | nil => rfl
    | cons fv rest =>
      have hd : startsWithDash fv.1 = true :=
        goodFlagPair_dash fv (hfps fv (List.mem_cons_self _ _))
      have hpos : positionalConfig
            (h :: n :: l :: mode :: fv.1 :: fv.2 :: flatPairs rest)
          = basePositional h n l mode none := by
        simp [positionalConfig, basePositional, hd]
      show scanFlags
          (positionalConfig (h :: n :: l :: mode :: fv.1 :: fv.2 :: flatPairs rest))
          ((h :: n :: l :: mode :: fv.1 :: fv.2 :: flatPairs rest).drop
            (if pyTruthyOpt (positionalConfig
                (h :: n :: l :: mode :: fv.1 :: fv.2 :: flatPairs rest)).peer_ip
              then 5 else 4))
        = List.foldl applyPair (basePositional h n l mode none) (fv :: rest)
      rw [hpos]
      have hdrop : (h :: n :: l :: mode :: fv.1 :: fv.2 :: flatPairs rest).drop
            (if pyTruthyOpt (basePositional h n l mode none).peer_ip then 5 else 4)
          = flatPairs (fv :: rest) := by
        simp [basePositional, pyTruthyOpt, flatPairs]
      rw [hdrop]
      exact scanFlags_pairs (fv :: rest) _ hfps
  · subst hpe
    have hpos : positionalConfig (h :: n :: l :: mode :: p :: flatPairs fps)
        = basePositional h n l mode (some p) := by
      simp [positionalConfig, basePositional, hp.2]
    show scanFlags (positionalConfig (h :: n :: l :: mode :: p :: flatPairs fps))
        ((h :: n :: l :: mode :: p :: flatPairs fps).drop
          (if pyTruthyOpt (positionalConfig
              (h :: n :: l :: mode :: p :: flatPairs fps)).peer_ip
            then 5 else 4))
      = List.foldl applyPair (basePositional h n l mode (some p)) fps
    rw [hpos]
    have hdrop : (h :: n :: l :: mode :: p :: flatPairs fps).drop
          (if pyTruthyOpt (basePositional h n l mode (some p)).peer_ip then 5 else 4)
        = flatPairs fps := by
      simp [basePositional, pyTruthyOpt, hp.1]
    rw [hdrop]
    exact scanFlags_pairs fps _ hfps

/-- Folding flag updates never touches the positional fields. -/
theorem foldl_applyPair_positional (fps : List (String × String)) :
    ∀ c : LinkConfig,
      (fps.foldl applyPair c).config_host = c.config_host
      ∧ (fps.foldl applyPair c).node_id = c.node_id
      ∧ (fps.foldl applyPair c).link_name = c.link_name
      ∧ (fps.foldl applyPair c).link_mode = c.link_mode
      ∧ (fps.foldl applyPair c).peer_ip = c.peer_ip := by
  induction fps with
  | nil => intro c; exact ⟨rfl, rfl, rfl, rfl, rfl⟩
  | cons fv rest ih =>
    intro c
    rw [List.foldl_cons]
    have hstep : (applyPair c fv).config_host = c.config_host
        ∧ (applyPair c fv).node_id = c.node_id
        ∧ (applyPair c fv).link_name = c.link_name
        ∧ (applyPair c fv).link_mode = c.link_mode
        ∧ (applyPair c fv).peer_ip = c.peer_ip := by
      unfold applyPair
      split_ifs <;> exact ⟨rfl, rfl, rfl, rfl, rfl⟩
    obtain ⟨i1, i2, i3, i4, i5⟩ := ih (applyPair c fv)
    exact ⟨i1.trans hstep.1, i2.trans hstep.2.1, i3.trans hstep.2.2.1,
      i4.trans hstep.2.2.2.1, i5.trans hstep.2.2.2.2⟩

/-- Folding well-formed flag updates leaves each option field either at
its incoming value or set to some grammar token. -/
theorem foldl_applyPair_options (fps : List (String × String)) :
    ∀ c : LinkConfig, (∀ fv ∈ fps, goodFlagPair fv) →
      ((fps.foldl applyPair c).encoding = c.encoding
          ∨ goodTok (fps.foldl applyPair c).encoding)
      ∧ ((fps.foldl applyPair c).sample_rate = c.sample_rate
          ∨ goodTok (fps.foldl applyPair c).sample_rate)
      ∧ ((fps.foldl applyPair c).jitter_buffer = c.jitter_buffer
          ∨ goodTok (fps.foldl applyPair c).jitter_buffer)
      ∧ ((fps.foldl applyPair c).audio_backend = c.audio_backend
          ∨ goodTok (fps.foldl applyPair c).audio_backend) := by
  induction fps with
  | nil => intro c _; exact ⟨Or.inl rfl, Or.inl rfl, Or.inl rfl, Or.inl rfl⟩
  | cons fv rest ih =>
    intro c hall
    have hfv : goodFlagPair fv := hall fv (List.mem_cons_self _ _)
    have hrest : ∀ x ∈ rest, goodFlagPair x :=
      fun x hx => hall x (List.mem_cons_of_mem fv hx)
    rw [List.foldl_cons]
    have hstep : ((applyPair c fv).encoding = c.encoding
          ∨ goodTok (applyPair c fv).encoding)
        ∧ ((applyPair c fv).sample_rate = c.sample_rate
          ∨ goodTok (applyPair c fv).sample_rate)
        ∧ ((applyPair c fv).jitter_buffer = c.jitter_buffer
          ∨ goodTok (applyPair c fv).jitter_buffer)
        ∧ ((applyPair c fv).audio_backend = c.audio_backend
          ∨ goodTok (applyPair c fv).audio_backend) := by
      unfold applyPair
      split_ifs <;>
        exact ⟨by first | exact Or.inl rfl | exact Or.inr hfv.2,
          by first | exact Or.inl rfl | exact Or.inr hfv.2,
          by first | exact Or.inl rfl | exact Or.inr hfv.2,
          by first | exact Or.inl rfl | exact Or.inr hfv.2⟩
    obtain ⟨i1, i2, i3, i4⟩ := ih (applyPair c fv) hrest
    refine ⟨?_, ?_, ?_, ?_⟩
    · rcases i1 with i1 | i1
      · rw [i1]; exact hstep.1
      · exact Or.inr i1
    · rcases i2 with i2 | i2
      · rw [i2]; exact hstep.2.1
      · exact Or.inr i2
    · rcases i3 with i3 | i3
      · rw [i3]; exact hstep.2.2.1
      · exact Or.inr i3
    · rcases i4 with i4 | i4
      · rw [i4]; exact hstep.2.2.2
      · exact Or.inr i4

/-- Folding the four option emissions over a base configuration with
default-empty rate/jitter installs exactly the four field values (an
absent pair leaves the base's empty string, which equals the absent
value). -/
theorem foldl_optPairs (h n l mode : String) (po : Option String)
    (ce cs cj ca : String) (hce : ce ≠ "") (hca : ca ≠ "") :
    (optPair "-e" ce ++ optPair "-r" cs ++ optPair "-j" cj
        ++ optPair "-a" ca).foldl applyPair (basePositional h n l mode po)
      = ⟨some h, some n, some l, some mode, po, ce, cs, cj, ca⟩ := by
  by_cases hcs : cs = "" <;> by_cases hcj : cj = "" <;>
    simp [optPair, hce, hca, hcs, hcj, applyPair, basePositional]

/-- Every pair emitted by the four option emissions is a well-formed
grammar flag pair, given the canonical field constraints. -/
theorem optPairs_good (ce cs cj ca : String) (he : goodTok ce)
    (hs : cs = "" ∨ goodTok cs) (hj : cj = "" ∨ goodTok cj) (ha : goodTok ca) :
    ∀ fv ∈ optPair "-e" ce ++ optPair "-r" cs ++ optPair "-j" cj
        ++ optPair "-a" ca, goodFlagPair fv := by
  intro fv hfv
  have hsg : cs ≠ "" → goodTok cs := fun hne => hs.resolve_left hne
  have hjg : cj ≠ "" → goodTok cj := fun hne => hj.resolve_left hne
  by_cases hcs : cs = "" <;> by_cases hcj : cj = "" <;>
    simp [optPair, he.1, ha.1, hcs, hcj] at hfv <;>
    rcases hfv with rfl | rfl | rfl | rfl <;>
    first
      | exact ⟨Or.inl rfl, he⟩
      | exact ⟨Or.inr (Or.inl rfl), hsg hcs⟩
      | exact ⟨Or.inr (Or.inr (Or.inl rfl)), hjg hcj⟩
      | exact ⟨Or.inr (Or.inr (Or.inr (Or.inl rfl))), ha⟩

/-- Re-parsing the canonical serialisation of a configuration of the shape
produced by a grammar parse recovers the configuration exactly. -/
theorem reparse_canonical (c : LinkConfig)
    (hh : ∃ h, c.config_host = some h ∧ goodTok h)
    (hn : ∃ n, c.node_id = some n ∧ goodTok n)
    (hl : ∃ l, c.link_name = some l ∧ goodTok l)
    (hm : c.link_mode = some "tx" ∨ c.link_mode = some "rx")
    (hp : c.peer_ip = none
        ∨ (c.link_mode = some "tx" ∧ ∃ p, c.peer_ip = some p ∧ goodTok p))
    (he : goodTok c.encoding)
    (hs : c.sample_rate = "" ∨ goodTok c.sample_rate)
    (hj : c.jitter_buffer = "" ∨ goodTok c.jitter_buffer)
    (ha : goodTok c.audio_backend) :
    LinkConfig.from_args (LinkConfig.to_args c) = c := by
  obtain ⟨ch, cn, cl, cm, cp, ce, cs, cj, ca⟩ := c
  dsimp only at hh hn hl hm hp he hs hj ha
  obtain ⟨h, rfl, hhg⟩ := hh
  obtain ⟨n, rfl, hng⟩ := hn
  obtain ⟨l, rfl, hlg⟩ := hl
  rcases hp with rfl | ⟨hmtx, p, rfl, hpg⟩
  · have hmx : ∃ mode, cm = some mode ∧ mode ≠ "" := by
      rcases hm with hm | hm
      · exact ⟨"tx", hm, by decide⟩
      · exact ⟨"rx", hm, by decide⟩
    obtain ⟨mode, rfl, hmne⟩ := hmx
    have hto : LinkConfig.to_args ⟨some h, some n, some l, some mode, none, ce, cs, cj, ca⟩
        = [h, n, l, mode] ++ [] ++ flatPairs (optPair "-e" ce ++ optPair "-r" cs
            ++ optPair "-j" cj ++ optPair "-a" ca) := by
      by_cases hcs : cs = "" <;> by_cases hcj : cj = "" <;>
        simp [LinkConfig.to_args, optPair, flatPairs, pyTruthyOpt,
          hhg.1, hng.1, hlg.1, hmne, he.1, ha.1, hcs, hcj]
    rw [hto, from_args_grammar h n l mode [] _ (Or.inl rfl)
      (optPairs_good ce cs cj ca he hs hj ha)]
    rw [show ([] : List String).head? = none from rfl]
    rw [foldl_optPairs h n l mode none ce cs cj ca he.1 ha.1]
  · subst hmtx
    have hto : LinkConfig.to_args ⟨some h, some n, some l, some "tx", some p, ce, cs, cj, ca⟩
        = [h, n, l, "tx"] ++ [p] ++ flatPairs (optPair "-e" ce ++ optPair "-r" cs
            ++ optPair "-j" cj ++ optPair "-a" ca) := by
      by_cases hcs : cs = "" <;> by_cases hcj : cj = "" <;>
        simp [LinkConfig.to_args, optPair, flatPairs, pyTruthyOpt,
          hhg.1, hng.1, hlg.1, hpg.1, he.1, ha.1, hcs, hcj]
    rw [hto, from_args_grammar h n l "tx" [p] _ (Or.inr ⟨p, rfl, hpg⟩)
      (optPairs_good ce cs cj ca he hs hj ha)]
    rw [show ([p] : List String).head? = some p from rfl]
    rw [foldl_optPairs h n l "tx" (some p) ce cs cj ca he.1 ha.1]

/-- C2 counterexample: the token list `h n l rx 9.9.9.9` matches the
claimed grammar (`[<peer-ip>]` is not restricted to `tx` there), parses
with `peer_ip = some "9.9.9.9"`, but `to_args` drops the peer in `rx`
mode, so re-parsing the serialisation loses the peer and the round trip
is not the identity. -/
theorem c2_counterexample :
    WellFormed ["h", "n", "l", "rx", "9.9.9.9"]
    ∧ LinkConfig.from_args
        (LinkConfig.to_args (LinkConfig.from_args ["h", "n", "l", "rx", "9.9.9.9"]))
      ≠ LinkConfig.from_args ["h", "n", "l", "rx", "9.9.9.9"] := by
  constructor
  · exact ⟨"h", "n", "l", "rx", ["9.9.9.9"], [], by decide, by decide, by decide,
      Or.inr rfl, Or.inr ⟨"9.9.9.9", rfl, by decide⟩,
      fun fv hfv => absurd hfv (List.not_mem_nil fv), rfl⟩
  · decide

/-- C2 (amended): for every token list matching the launch-argument
grammar in which a peer token appears only in `tx` role, parsing the
re-serialised configuration gives back an identical configuration:
`from_args (to_args (from_args s)) = from_args s`. -/
theorem c2_roundtrip (parts : List String) (hwf : WellFormedTxPeer parts) :
    LinkConfig.from_args (LinkConfig.to_args (LinkConfig.from_args parts))
      = LinkConfig.from_args parts := by
  obtain ⟨h, n, l, mode, peer, fps, hh, hn, hl, hmode, hpeer, hfps, rfl⟩ := hwf
  have hpeer' : peer = [] ∨ ∃ p, peer = [p] ∧ goodTok p := by
    rcases hpeer with hp | ⟨_, p, hp, hg⟩
    · exact Or.inl hp
    · exact Or.inr ⟨p, hp, hg⟩
  rw [show ([h, n, l, mode] ++ peer ++ fps.flatMap (fun fv => [fv.1, fv.2]))
      = [h, n, l, mode] ++ peer ++ flatPairs fps from rfl]
  rw [from_args_grammar h n l mode peer fps hpeer' hfps]
  obtain ⟨p1, p2, p3, p4, p5⟩ :=
    foldl_applyPair_positional fps (basePositional h n l mode peer.head?)
  obtain ⟨o1, o2, o3, o4⟩ :=
    foldl_applyPair_options fps (basePositional h n l mode peer.head?) hfps
  apply reparse_canonical
  · exact ⟨h, p1, hh⟩
  · exact ⟨n, p2, hn⟩
  · exact ⟨l, p3, hl⟩
  · rcases hmode with rfl | rfl
    · exact Or.inl p4
    · exact Or.inr p4
  · rcases hpeer with hp | ⟨hmtx, p, hp, hg⟩
    · subst hp
      exact Or.inl p5
    · subst hmtx hp
      exact Or.inr ⟨p4, p, p5, hg⟩
  · rcases o1 with o1 | o1
    · rw [o1]; show goodTok "pcm"; decide
    · exact o1
  · rcases o2 with o2 | o2
    · exact Or.inl o2
    · exact Or.inr o2
  · rcases o3 with o3 | o3
    · exact Or.inl o3
    · exact Or.inr o3
  · rcases o4 with o4 | o4
    · rw [o4]; show goodTok "auto"; decide
    · exact o4

/-- C2 witness: the spec's own scenario string, tokenised. -/
theorem c2_roundtrip_witness :
    LinkConfig.from_args
        (LinkConfig.to_args (LinkConfig.from_args
          ["127.0.0.1", "emetteur", "transmission", "tx", "192.168.1.17",
            "-e", "pcm", "-r", "48000", "-j", "60", "-a", "auto"]))
      = LinkConfig.from_args
          ["127.0.0.1", "emetteur", "transmission", "tx", "192.168.1.17",
            "-e", "pcm", "-r", "48000", "-j", "60", "-a", "auto"] :=
  c2_roundtrip
    ["127.0.0.1", "emetteur", "transmission", "tx", "192.168.1.17",
      "-e", "pcm", "-r", "48000", "-j", "60", "-a", "auto"]
    ⟨"127.0.0.1", "emetteur", "transmission", "tx", ["192.168.1.17"],
      [("-e", "pcm"), ("-r", "48000"), ("-j", "60"), ("-a", "auto")],
      by decide, by decide, by decide, Or.inl rfl,
      Or.inr ⟨rfl, "192.168.1.17", rfl, by decide⟩,
      by intro fv hfv; fin_cases hfv <;> exact ⟨by decide, by decide⟩, rfl⟩
